import Mathlib

/-!
Verification of the sales ETL pipeline (`src/etl/etl_sales.py`).

The embedding models a pandas `DataFrame` as a list of column names plus a
list of rows.  A row carries the canonical sales-record fields as `Option`
values (`none` is a null cell, and also the value of every cell of a column
that is absent from the frame); columns outside the fixed rename mapping are
carried in `extra` and are never touched by any pipeline step.
Cell values are modelled post-coercion (step 2 of the transform parses dates
and numerics with `errors="coerce"`, so a cell is either a typed value or
null); dates are day numbers.
-/

/-- One record of a frame.  Fields default to `none` so concrete rows list
only the populated cells. -/
structure Row where
  region : Option String := none
  country : Option String := none
  item_type : Option String := none
  sales_channel : Option String := none
  order_priority : Option String := none
  order_date : Option Int := none
  ship_date : Option Int := none
  order_id : Option Int := none
  units_sold : Option Rat := none
  unit_price : Option Rat := none
  unit_cost : Option Rat := none
  total_revenue : Option Rat := none
  total_cost : Option Rat := none
  total_profit : Option Rat := none
  extra : List (String × Option String) := []
deriving DecidableEq, Repr

/-- A data frame: its column labels and its rows. -/
structure Frame where
  cols : List String
  rows : List Row
deriving DecidableEq, Repr

/-- The fixed rename mapping of `transform_data` step 1 (`df.rename`): source
headers are renamed to canonical names; any other label is kept unchanged
(pandas `rename` never drops a column). -/
def canonicalize (c : String) : String :=
  if c = "Region" then "region"
  else if c = "Country" then "country"
  else if c = "Item Type" then "item_type"
  else if c = "Sales Channel" then "sales_channel"
  else if c = "Order Priority" then "order_priority"
  else if c = "Order Date" then "order_date"
  else if c = "Order ID" then "order_id"
  else if c = "Ship Date" then "ship_date"
  else if c = "Units Sold" then "units_sold"
  else if c = "Unit Price" then "unit_price"
  else if c = "Unit Cost" then "unit_cost"
  else if c = "Total Revenue" then "total_revenue"
  else if c = "Total Cost" then "total_cost"
  else if c = "Total Profit" then "total_profit"
  else c

/-- The canonical field names, the values of the rename mapping. -/
def canonicalTargets : List String :=
  ["region", "country", "item_type", "sales_channel", "order_priority", "order_date",
   "order_id", "ship_date", "units_sold", "unit_price", "unit_cost", "total_revenue",
   "total_cost", "total_profit"]

/-- The default date `1900-01-01` used to fill missing dates, as a day number
relative to 1970-01-01. -/
def date19000101 : Int := -25567

/-- `fillna` on a single cell, guarded by column presence: when the column is
present, a null cell becomes the default and a present value is kept; when
the column is absent nothing happens. -/
def fillOpt (b : Prop) [Decidable b] (v : Option α) (d : α) : Option α :=
  if b then some (v.getD d) else v

/-- Step 3 of `transform_data` restricted to one row: the categorical,
numeric and date `fillna` calls, each guarded by `if col in df.columns`.
The fills touch disjoint fields, so the sequential loops of the source are a
single simultaneous update. -/
def fillRow (cols : List String) (r : Row) : Row :=
  { r with
    region := fillOpt ("region" ∈ cols) r.region "Unknown",
    country := fillOpt ("country" ∈ cols) r.country "Unknown",
    item_type := fillOpt ("item_type" ∈ cols) r.item_type "Unknown",
    sales_channel := fillOpt ("sales_channel" ∈ cols) r.sales_channel "Unknown",
    order_priority := fillOpt ("order_priority" ∈ cols) r.order_priority "Unknown",
    units_sold := fillOpt ("units_sold" ∈ cols) r.units_sold 0,
    unit_price := fillOpt ("unit_price" ∈ cols) r.unit_price 0,
    unit_cost := fillOpt ("unit_cost" ∈ cols) r.unit_cost 0,
    total_revenue := fillOpt ("total_revenue" ∈ cols) r.total_revenue 0,
    total_cost := fillOpt ("total_cost" ∈ cols) r.total_cost 0,
    total_profit := fillOpt ("total_profit" ∈ cols) r.total_profit 0,
    order_date := fillOpt ("order_date" ∈ cols) r.order_date date19000101,
    ship_date := fillOpt ("ship_date" ∈ cols) r.ship_date date19000101 }

/-- `df["order_id"].max()` skipping nulls, and `0` when every id is null
(the `if not df["order_id"].isna().all() else 0` guard). -/
def maxExisting (rows : List Row) : Int :=
  match rows.filterMap Row.order_id with
  | [] => 0
  | x :: xs => xs.foldl max x

/-- `start_id = min(max_existing_id - 1, -1)`. -/
def startId (rows : List Row) : Int :=
  min (maxExisting rows - 1) (-1)

/-- Number of rows whose `order_id` is null (`missing_order_ids.sum()`). -/
def countMissing (rows : List Row) : Nat :=
  (rows.filter (fun r => r.order_id.isNone)).length

/-- Assignment of `range(start_id, start_id - missing, -1)` to the rows with
null `order_id`, in row order. -/
def assignIds : Int → List Row → List Row
  | _, [] => []
  | k, r :: rs =>
    if r.order_id.isNone then { r with order_id := some k } :: assignIds (k - 1) rs
    else r :: assignIds k rs

/-- The id-synthesis block of step 3 (entered when some `order_id` is null). -/
def synthOrderIds (rows : List Row) : List Row :=
  assignIds (startId rows) rows

/-- The ids the synthesis gave to the originally-null rows, in row order. -/
def newIds (orig res : List Row) : List (Option Int) :=
  (orig.zip res).filterMap
    (fun p => if p.1.order_id.isNone then some p.2.order_id else none)

/-- Step 3 of `transform_data` on a whole batch: the per-row fills, then id
synthesis when the `order_id` column is present and some id is null. -/
def fillStage (cols : List String) (rows : List Row) : List Row :=
  if "order_id" ∈ cols then
    if (rows.map (fillRow cols)).any (fun r => r.order_id.isNone) then
      synthOrderIds (rows.map (fillRow cols))
    else rows.map (fillRow cols)
  else rows.map (fillRow cols)

/-- `drop_duplicates(subset=["order_id"], keep="first")`: keep a row unless
an earlier row had the same `order_id` value (pandas treats null keys as
equal to each other). -/
def dedupKeep : List (Option Int) → List Row → List Row
  | _, [] => []
  | seen, r :: rs =>
    if r.order_id ∈ seen then dedupKeep seen rs
    else r :: dedupKeep (r.order_id :: seen) rs

/-- Step 4 of `transform_data`. -/
def dropDuplicates (rows : List Row) : List Row :=
  dedupKeep [] rows

/-- `df["units_sold"] >= 0` on one row (a null compares as `False`). -/
def unitsOK (r : Row) : Bool :=
  match r.units_sold with
  | some u => decide (0 ≤ u)
  | none => false

/-- The ship-date repair of step 5: where `ship_date < order_date`, set
`ship_date := order_date` (a null on either side compares as `False`). -/
def repairDates (r : Row) : Row :=
  match r.order_date, r.ship_date with
  | some o, some s => if s < o then { r with ship_date := some o } else r
  | _, _ => r

/-- Step 4 and the two dropping parts of step 5: dedup on `order_id`,
`dropna(subset=["order_id"])`, and the `units_sold >= 0` filter (guarded by
column presence). -/
def validateNoRepair (cols : List String) (rows : List Row) : List Row :=
  if "units_sold" ∈ cols then
    ((dropDuplicates rows).filter (fun r => r.order_id.isSome)).filter unitsOK
  else (dropDuplicates rows).filter (fun r => r.order_id.isSome)

/-- Steps 4 and 5 of `transform_data`: the drops above, then the date repair
(guarded by the presence of both date columns). -/
def validateStage (cols : List String) (rows : List Row) : List Row :=
  if "order_date" ∈ cols ∧ "ship_date" ∈ cols then
    (validateNoRepair cols rows).map repairDates
  else validateNoRepair cols rows

/-- `transform_data`: rename, coercion (identity on typed cells), fills and
id synthesis, dedup, validation.  `drop_duplicates(subset=["order_id"])` and
`dropna(subset=["order_id"])` raise `KeyError` when the `order_id` column is
absent after renaming; every other step is guarded by column presence, so
the function fails exactly when `order_id` is missing. -/
def transform_data (df : Frame) : Except String Frame :=
  if "order_id" ∈ df.cols.map canonicalize then
    Except.ok ⟨df.cols.map canonicalize,
      validateStage (df.cols.map canonicalize) (fillStage (df.cols.map canonicalize) df.rows)⟩
  else
    Except.error "KeyError: order_id"

/-- `load_data`: an empty frame returns `0` without touching the store;
otherwise `to_sql` runs (it may raise) and the row count is returned.  The
store is abstracted as the `toSql` parameter. -/
def load_data (toSql : Frame → Except String Unit) (df : Frame) : Except String Nat :=
  if df.rows.isEmpty then Except.ok 0
  else
    match toSql df with
    | Except.ok _ => Except.ok df.rows.length
    | Except.error e => Except.error e

/-- Floor of a rational as an integer (floor division of numerator by
denominator). -/
def ratFloor (q : Rat) : Int := q.num.fdiv q.den

/-- Python `round(x, 2)` (round half to even) on a rational. -/
def round2 (q : Rat) : Rat :=
  let x := q * 100
  let f : Int := ratFloor x
  let r : Rat := x - f
  (if r < 1 / 2 then (f : Rat)
   else if 1 / 2 < r then (f : Rat) + 1
   else if f % 2 = 0 then (f : Rat) else (f : Rat) + 1) / 100

/-- The progress percentage of one `etl_chunk_complete` event.
`pct = (processed / total_rows * 100) if total_rows else None` is `None`
when `total_rows` is `None` or `0` (falsy), and
`progress_percent = (round(pct, 2) if pct else None)` is `None` when `pct`
is `None` or `0.0` (falsy). -/
def progressPercent (totalRows : Option Int) (processed : Nat) : Option Rat :=
  match totalRows with
  | none => none
  | some t =>
    if t = 0 then none
    else if (processed : Rat) / (t : Rat) * 100 = 0 then none
    else some (round2 ((processed : Rat) / (t : Rat) * 100))

/-- The payload of one `etl_chunk_complete` log event. -/
structure ChunkEvent where
  chunk_number : Nat
  extracted_rows : Nat
  transformed_rows : Nat
  loaded_rows : Nat
  total_processed : Nat
  progress_percent : Option Rat
deriving DecidableEq, Repr

/-- The per-chunk loop of `run_etl`: transform, load, accumulate `processed`,
emit one event per chunk.  Returns the emitted events and either the first
propagated exception or the final `processed` value (the figure logged by
`etl_pipeline_complete`).  `tot` is the pre-counted line total, `none` when
the count raised. -/
def runChunks (toSql : Frame → Except String Unit) (tot : Option Int) :
    List Frame → Nat → Nat → List ChunkEvent × Except String Nat
  | [], _, processed => ([], Except.ok processed)
  | c :: cs, i, processed =>
    match transform_data c with
    | Except.error e => ([], Except.error e)
    | Except.ok t =>
      match load_data toSql t with
      | Except.error e => ([], Except.error e)
      | Except.ok n =>
        (⟨i, c.rows.length, t.rows.length, n, processed + n,
            progressPercent tot (processed + n)⟩ ::
          (runChunks toSql tot cs (i + 1) (processed + n)).1,
         (runChunks toSql tot cs (i + 1) (processed + n)).2)

/-- `run_etl`: returns `None` (unit) on success — the total is only logged —
and propagates the first unrecoverable exception. -/
def run_etl (toSql : Frame → Except String Unit) (tot : Option Int)
    (chunks : List Frame) : Except String Unit :=
  (runChunks toSql tot chunks 1 0).2.map (fun _ => ())

/-- A well-formed frame carries no cell value in a canonical field whose
(normalized) column is absent, as in a real DataFrame.  Only the fields the
validation stage inspects are constrained. -/
def Frame.WF (df : Frame) : Prop :=
  ∀ r ∈ df.rows,
    ("units_sold" ∉ df.cols.map canonicalize → r.units_sold = none)
    ∧ ("order_date" ∉ df.cols.map canonicalize → r.order_date = none)
    ∧ ("ship_date" ∉ df.cols.map canonicalize → r.ship_date = none)

/-- The fill state step 3 leaves a row in: every canonical field whose
column is present holds a value (`fillna` ran on it). -/
def Filled (cols : List String) (r : Row) : Prop :=
  ("region" ∈ cols → r.region.isSome)
  ∧ ("country" ∈ cols → r.country.isSome)
  ∧ ("item_type" ∈ cols → r.item_type.isSome)
  ∧ ("sales_channel" ∈ cols → r.sales_channel.isSome)
  ∧ ("order_priority" ∈ cols → r.order_priority.isSome)
  ∧ ("units_sold" ∈ cols → r.units_sold.isSome)
  ∧ ("unit_price" ∈ cols → r.unit_price.isSome)
  ∧ ("unit_cost" ∈ cols → r.unit_cost.isSome)
  ∧ ("total_revenue" ∈ cols → r.total_revenue.isSome)
  ∧ ("total_cost" ∈ cols → r.total_cost.isSome)
  ∧ ("total_profit" ∈ cols → r.total_profit.isSome)
  ∧ ("order_date" ∈ cols → r.order_date.isSome)
  ∧ ("ship_date" ∈ cols → r.ship_date.isSome)

/-- Scenario A input (spec §8): two rows sharing `order_id = 1`, the first
with `units_sold = -5`, the second with `units_sold = 10`. -/
def scnA : Frame :=
  ⟨["Order ID", "Units Sold"],
   [{ order_id := some 1, units_sold := some (-5) },
    { order_id := some 1, units_sold := some 10 }]⟩

/-- A frame with a column (`"Weird Column"`) outside the rename mapping. -/
def c2df : Frame :=
  ⟨["Order ID", "Weird Column"],
   [{ order_id := some 1, extra := [("Weird Column", some "x")] }]⟩

/-- Scenario C input (spec §8): max existing `order_id` is `5` and one row
is missing its `order_id`. -/
def c5df : Frame :=
  ⟨["Order ID"], [{ order_id := some 5 }, {}]⟩

/-- Rows whose real `order_id`s are the negative values `-1` and `-3`,
followed by two rows with a missing `order_id`. -/
def c6rows : List Row :=
  [{ order_id := some (-1) }, { order_id := some (-3) }, {}, {}]

/-- A store stub that always succeeds. -/
def toSqlOk : Frame → Except String Unit := fun _ => Except.ok ()

/-- A store stub that fails (raises `"boom"`) exactly on the batch whose
single row has `order_id = 2`. -/
def toSqlB : Frame → Except String Unit :=
  fun f => if f.rows.map Row.order_id = [some 2] then Except.error "boom" else Except.ok ()

/-- A one-row chunk with `order_id = 1` (loads successfully under `toSqlB`). -/
def frameB1 : Frame := ⟨["Order ID"], [{ order_id := some 1 }]⟩

/-- A one-row chunk with `order_id = 2` (its store write fails under `toSqlB`). -/
def frameB2 : Frame := ⟨["Order ID"], [{ order_id := some 2 }]⟩

/-- Two rows, both with a null `order_id`. -/
def w10rows : List Row := [{}, {}]

instance {ε α : Type} [DecidableEq ε] [DecidableEq α] : DecidableEq (Except ε α) :=
  fun a b =>
    match a, b with
    | Except.ok x, Except.ok y => decidable_of_iff (x = y) (by simp)
    | Except.error x, Except.error y => decidable_of_iff (x = y) (by simp)
    | Except.ok _, Except.error _ => isFalse (by simp)
    | Except.error _, Except.ok _ => isFalse (by simp)

/-- A well-formed frame exercising fills, dedup, the units filter and the
date repair: one row with `ship_date` before `order_date`. -/
def c4df : Frame :=
  ⟨["Order ID", "Units Sold", "Order Date", "Ship Date"],
   [{ order_id := some 1, units_sold := some 5, order_date := some 100,
      ship_date := some 90 }]⟩

/-- The transform of `c4df`: the ship date is repaired to the order date. -/
def c4out : Frame :=
  ⟨["order_id", "units_sold", "order_date", "ship_date"],
   [{ order_id := some 1, units_sold := some 5, order_date := some 100,
      ship_date := some 100 }]⟩

/-- The transform of `c2df`: the unmapped column survives. -/
def c2out : Frame :=
  ⟨["order_id", "Weird Column"],
   [{ order_id := some 1, extra := [("Weird Column", some "x")] }]⟩

/-- Rows with nonnegative real ids (`5`) and two missing ids. -/
def w6rows : List Row := [{ order_id := some 5 }, {}, {}]

/-- A frame with no `order_id` column (nothing the rename maps to it). -/
def noIdFrame : Frame := ⟨["Foo", "Units Sold"], [{ units_sold := some 3 }]⟩

/-! ### Lemmas about renaming and filling -/

theorem canonicalize_cases (c : String) :
    canonicalize c = c ∨ canonicalize c ∈ canonicalTargets := by
  unfold canonicalize
  by_cases h1 : c = "Region"
  · subst h1; decide
  rw [if_neg h1]
  by_cases h2 : c = "Country"
  · subst h2; decide
  rw [if_neg h2]
  by_cases h3 : c = "Item Type"
  · subst h3; decide
  rw [if_neg h3]
  by_cases h4 : c = "Sales Channel"
  · subst h4; decide
  rw [if_neg h4]
  by_cases h5 : c = "Order Priority"
  · subst h5; decide
  rw [if_neg h5]
  by_cases h6 : c = "Order Date"
  · subst h6; decide
  rw [if_neg h6]
  by_cases h7 : c = "Order ID"
  · subst h7; decide
  rw [if_neg h7]
  by_cases h8 : c = "Ship Date"
  · subst h8; decide
  rw [if_neg h8]
  by_cases h9 : c = "Units Sold"
  · subst h9; decide
  rw [if_neg h9]
  by_cases h10 : c = "Unit Price"
  · subst h10; decide
  rw [if_neg h10]
  by_cases h11 : c = "Unit Cost"
  · subst h11; decide
  rw [if_neg h11]
  by_cases h12 : c = "Total Revenue"
  · subst h12; decide
  rw [if_neg h12]
  by_cases h13 : c = "Total Cost"
  · subst h13; decide
  rw [if_neg h13]
  by_cases h14 : c = "Total Profit"
  · subst h14; decide
  rw [if_neg h14]
  left; rfl

theorem canonicalize_target {t : String} (h : t ∈ canonicalTargets) : canonicalize t = t := by
  fin_cases h <;> decide

theorem canonicalize_idem (c : String) : canonicalize (canonicalize c) = canonicalize c := by
  rcases canonicalize_cases c with h | h
  · rw [h]; exact h
  · exact canonicalize_target h

theorem fillOpt_isSome (b : Prop) [Decidable b] (v : Option α) (d : α) (h : b) :
    (fillOpt b v d).isSome := by
  simp [fillOpt, h]

theorem fillOpt_eq_self {b : Prop} [Decidable b] {v : Option α} {d : α}
    (h : b → v.isSome) : fillOpt b v d = v := by
  unfold fillOpt
  split
  · next hb =>
    have hs := h hb
    cases v
    · simp at hs
    · rfl
  · rfl

theorem fillOpt_not {b : Prop} [Decidable b] {v : Option α} {d : α} (h : ¬b) :
    fillOpt b v d = v := by
  simp [fillOpt, h]

theorem filled_fillRow (cols : List String) (r : Row) : Filled cols (fillRow cols r) :=
  ⟨fun h => fillOpt_isSome _ _ _ h, fun h => fillOpt_isSome _ _ _ h,
   fun h => fillOpt_isSome _ _ _ h, fun h => fillOpt_isSome _ _ _ h,
   fun h => fillOpt_isSome _ _ _ h, fun h => fillOpt_isSome _ _ _ h,
   fun h => fillOpt_isSome _ _ _ h, fun h => fillOpt_isSome _ _ _ h,
   fun h => fillOpt_isSome _ _ _ h, fun h => fillOpt_isSome _ _ _ h,
   fun h => fillOpt_isSome _ _ _ h, fun h => fillOpt_isSome _ _ _ h,
   fun h => fillOpt_isSome _ _ _ h⟩

theorem fillRow_eq_of_filled {cols : List String} {r : Row} (h : Filled cols r) :
    fillRow cols r = r := by
  obtain ⟨h1, h2, h3, h4, h5, h6, h7, h8, h9, h10, h11, h12, h13⟩ := h
  unfold fillRow
  simp only [fillOpt_eq_self h1, fillOpt_eq_self h2, fillOpt_eq_self h3, fillOpt_eq_self h4,
    fillOpt_eq_self h5, fillOpt_eq_self h6, fillOpt_eq_self h7, fillOpt_eq_self h8,
    fillOpt_eq_self h9, fillOpt_eq_self h10, fillOpt_eq_self h11, fillOpt_eq_self h12,
    fillOpt_eq_self h13]

theorem fillRow_order_id (cols : List String) (r : Row) :
    (fillRow cols r).order_id = r.order_id := rfl

theorem filled_set_id {cols : List String} {r : Row} (h : Filled cols r) (m : Int) :
    Filled cols { r with order_id := some m } := h

/-! ### Lemmas about id synthesis -/

theorem assignIds_mem {k : Int} {l : List Row} {b : Row} (h : b ∈ assignIds k l) :
    ∃ a ∈ l, b = a ∨ ∃ m, b = { a with order_id := some m } := by
  induction l generalizing k with
  | nil => simp [assignIds] at h
  | cons r rs ih =>
    unfold assignIds at h
    split at h
    · rcases List.mem_cons.mp h with h | h
      · exact ⟨r, List.mem_cons_self r rs, Or.inr ⟨k, h⟩⟩
      · obtain ⟨a, ha, hb⟩ := ih h
        exact ⟨a, List.mem_cons_of_mem r ha, hb⟩
    · rcases List.mem_cons.mp h with h | h
      · exact ⟨r, List.mem_cons_self r rs, Or.inl h⟩
      · obtain ⟨a, ha, hb⟩ := ih h
        exact ⟨a, List.mem_cons_of_mem r ha, hb⟩

theorem assignIds_isSome {k : Int} {l : List Row} {b : Row} (h : b ∈ assignIds k l) :
    b.order_id.isSome := by
  induction l generalizing k with
  | nil => simp [assignIds] at h
  | cons r rs ih =>
    unfold assignIds at h
    split at h
    · rcases List.mem_cons.mp h with h | h
      · subst h; rfl
      · exact ih h
    · next hr =>
      rcases List.mem_cons.mp h with h | h
      · subst h
        cases hx : b.order_id
        · exact absurd (by simp [hx]) hr
        · rfl
      · exact ih h

theorem countMissing_cons_pos {r : Row} (rs : List Row) (h : r.order_id.isNone) :
    countMissing (r :: rs) = countMissing rs + 1 := by
  simp [countMissing, List.filter_cons, h]

theorem countMissing_cons_neg {r : Row} (rs : List Row) (h : ¬ r.order_id.isNone) :
    countMissing (r :: rs) = countMissing rs := by
  simp [countMissing, List.filter_cons, h]

theorem newIds_cons_pos {r b : Row} {rs bs : List Row} (h : r.order_id.isNone) :
    newIds (r :: rs) (b :: bs) = b.order_id :: newIds rs bs := by
  have h' := Option.isNone_iff_eq_none.mp h
  simp [newIds, List.zip_cons_cons, List.filterMap_cons, h']

theorem newIds_cons_neg {r b : Row} {rs bs : List Row} (h : ¬ r.order_id.isNone) :
    newIds (r :: rs) (b :: bs) = newIds rs bs := by
  have h' : ¬ r.order_id = none := fun e => h (Option.isNone_iff_eq_none.mpr e)
  simp [newIds, List.zip_cons_cons, List.filterMap_cons, h']

theorem newIds_assignIds (l : List Row) (k : Int) :
    newIds l (assignIds k l) =
      (List.range (countMissing l)).map (fun j : Nat => some (k - (j : Int))) := by
  induction l generalizing k with
  | nil => rfl
  | cons r rs ih =>
    by_cases hr : r.order_id.isNone
    · rw [countMissing_cons_pos rs hr]
      unfold assignIds
      rw [if_pos hr, newIds_cons_pos hr, ih (k - 1), List.range_succ_eq_map,
        List.map_cons, List.map_map]
      congr 1
      · simp
      · apply List.map_congr_left
        intro j _
        simp only [Function.comp_apply, Nat.succ_eq_add_one, Option.some.injEq]
        push_cast
        ring
    · rw [countMissing_cons_neg rs hr]
      unfold assignIds
      rw [if_neg hr, newIds_cons_neg hr]
      exact ih k

/-! ### Lemmas about deduplication -/

theorem dedupKeep_sublist (seen : List (Option Int)) (l : List Row) :
    (dedupKeep seen l).Sublist l := by
  induction l generalizing seen with
  | nil => simp [dedupKeep]
  | cons r rs ih =>
    unfold dedupKeep
    split
    · exact (ih seen).cons r
    · exact (ih _).cons₂ r

theorem dedupKeep_not_seen {seen : List (Option Int)} {l : List Row} {b : Row}
    (h : b ∈ dedupKeep seen l) : b.order_id ∉ seen := by
  induction l generalizing seen with
  | nil => simp [dedupKeep] at h
  | cons r rs ih =>
    unfold dedupKeep at h
    split at h
    · exact ih h
    · next hr =>
      rcases List.mem_cons.mp h with h | h
      · subst h; exact hr
      · intro hmem
        exact ih h (List.mem_cons_of_mem _ hmem)

theorem dedupKeep_keys_nodup (seen : List (Option Int)) (l : List Row) :
    ((dedupKeep seen l).map Row.order_id).Nodup := by
  induction l generalizing seen with
  | nil => simp [dedupKeep]
  | cons r rs ih =>
    unfold dedupKeep
    split
    · exact ih seen
    · rw [List.map_cons]
      refine List.nodup_cons.mpr ⟨?_, ih _⟩
      intro hmem
      obtain ⟨b, hb, he⟩ := List.mem_map.mp hmem
      have := dedupKeep_not_seen hb
      exact this (he ▸ List.mem_cons_self _ _)

theorem dedupKeep_eq_self {seen : List (Option Int)} {l : List Row}
    (h1 : (l.map Row.order_id).Nodup) (h2 : ∀ r ∈ l, r.order_id ∉ seen) :
    dedupKeep seen l = l := by
  induction l generalizing seen with
  | nil => rfl
  | cons r rs ih =>
    unfold dedupKeep
    rw [if_neg (h2 r (List.mem_cons_self r rs))]
    congr 1
    refine ih (List.nodup_cons.mp (by simpa using h1)).2 ?_
    intro a ha
    rcases List.mem_cons.mp (Iff.mpr List.mem_cons (Or.inr ha) : a ∈ r :: rs) with he | _
    all_goals intro hmem
    all_goals rcases List.mem_cons.mp hmem with he2 | he2
    · exact absurd (List.mem_map_of_mem Row.order_id ha)
        (by rw [List.map_cons] at h1; exact (he2 ▸ (List.nodup_cons.mp h1).1))
    · exact h2 a (List.mem_cons_of_mem r ha) he2
    · exact absurd (List.mem_map_of_mem Row.order_id ha)
        (by rw [List.map_cons] at h1; exact (he2 ▸ (List.nodup_cons.mp h1).1))
    · exact h2 a (List.mem_cons_of_mem r ha) he2

/-! ### Lemmas about validation and repair -/

theorem repairDates_order_id (r : Row) : (repairDates r).order_id = r.order_id := by
  unfold repairDates
  split
  · split <;> rfl
  · rfl

theorem repairDates_units_sold (r : Row) : (repairDates r).units_sold = r.units_sold := by
  unfold repairDates
  split
  · split <;> rfl
  · rfl

theorem repairDates_of_order_none {r : Row} (h : r.order_date = none) :
    repairDates r = r := by
  simp [repairDates, h]

theorem repairDates_of_ship_none {r : Row} (h : r.ship_date = none) :
    repairDates r = r := by
  rcases ho : r.order_date with _ | o <;> simp [repairDates, ho, h]

theorem repairDates_of_lt {r : Row} {o s : Int} (ho : r.order_date = some o)
    (hs : r.ship_date = some s) (hlt : s < o) :
    repairDates r = { r with ship_date := some o } := by
  simp [repairDates, ho, hs, hlt]

theorem repairDates_of_le {r : Row} {o s : Int} (ho : r.order_date = some o)
    (hs : r.ship_date = some s) (hle : ¬ s < o) :
    repairDates r = r := by
  simp [repairDates, ho, hs, hle]

theorem repairDates_idem (r : Row) : repairDates (repairDates r) = repairDates r := by
  rcases ho : r.order_date with _ | o
  · rw [repairDates_of_order_none ho, repairDates_of_order_none ho]
  rcases hs : r.ship_date with _ | s
  · rw [repairDates_of_ship_none hs, repairDates_of_ship_none hs]
  by_cases hlt : s < o
  · rw [repairDates_of_lt ho hs hlt]
    exact repairDates_of_le (o := o) (s := o) ho rfl (lt_irrefl o)
  · rw [repairDates_of_le ho hs hlt, repairDates_of_le ho hs hlt]

theorem repairDates_le {r : Row} {o s : Int} (ho : (repairDates r).order_date = some o)
    (hs : (repairDates r).ship_date = some s) : o ≤ s := by
  rcases ho2 : r.order_date with _ | o0
  · rw [repairDates_of_order_none ho2, ho2] at ho
    exact absurd ho (by simp)
  rcases hs2 : r.ship_date with _ | s0
  · rw [repairDates_of_ship_none hs2, hs2] at hs
    exact absurd hs (by simp)
  by_cases hlt : s0 < o0
  · rw [repairDates_of_lt ho2 hs2 hlt] at ho hs
    have h1 : o = o0 := by
      have : r.order_date = some o := ho
      rw [ho2] at this
      exact (Option.some.injEq _ _ ▸ this).symm
    have h2 : s = o0 := by
      have : (some o0 : Option Int) = some s := hs
      simpa using this.symm
    rw [h1, h2]
  · rw [repairDates_of_le ho2 hs2 hlt] at ho hs
    rw [ho2] at ho
    rw [hs2] at hs
    have h1 : o = o0 := by simpa using ho.symm
    have h2 : s = s0 := by simpa using hs.symm
    rw [h1, h2]
    exact not_lt.mp hlt

theorem repairDates_filled {cols : List String} {r : Row} (h : Filled cols r) :
    Filled cols (repairDates r) := by
  rcases ho : r.order_date with _ | o
  · rw [repairDates_of_order_none ho]; exact h
  rcases hs : r.ship_date with _ | s
  · rw [repairDates_of_ship_none hs]; exact h
  by_cases hlt : s < o
  · rw [repairDates_of_lt ho hs hlt]
    obtain ⟨c1, c2, c3, c4, c5, c6, c7, c8, c9, c10, c11, c12, c13⟩ := h
    exact ⟨c1, c2, c3, c4, c5, c6, c7, c8, c9, c10, c11, c12, fun _ => rfl⟩
  · rw [repairDates_of_le ho hs hlt]; exact h

/-! ### Lemmas about the fill stage -/

theorem fillStage_mem {cols : List String} {rows : List Row} {b : Row}
    (h : b ∈ fillStage cols rows) :
    ∃ a ∈ rows, b = fillRow cols a ∨ ∃ m, b = { fillRow cols a with order_id := some m } := by
  unfold fillStage at h
  have core : b ∈ rows.map (fillRow cols) →
      ∃ a ∈ rows, b = fillRow cols a ∨ ∃ m, b = { fillRow cols a with order_id := some m } := by
    intro hm
    obtain ⟨a, ha, he⟩ := List.mem_map.mp hm
    exact ⟨a, ha, Or.inl he.symm⟩
  split at h
  · split at h
    · obtain ⟨b0, hb0, hcase⟩ := assignIds_mem h
      obtain ⟨a, ha, he⟩ := List.mem_map.mp hb0
      rcases hcase with hc | ⟨m, hc⟩
      · exact ⟨a, ha, Or.inl (he ▸ hc)⟩
      · exact ⟨a, ha, Or.inr ⟨m, he ▸ hc⟩⟩
    · exact core h
  · exact core h

theorem fillStage_filled {cols : List String} {rows : List Row} {b : Row}
    (h : b ∈ fillStage cols rows) : Filled cols b := by
  obtain ⟨a, _, hc | ⟨m, hc⟩⟩ := fillStage_mem h
  · exact hc ▸ filled_fillRow cols a
  · exact hc ▸ filled_set_id (filled_fillRow cols a) m

theorem fillStage_isSome {cols : List String} {rows : List Row}
    (hc : "order_id" ∈ cols) {b : Row} (h : b ∈ fillStage cols rows) :
    b.order_id.isSome := by
  unfold fillStage at h
  rw [if_pos hc] at h
  split at h
  · exact assignIds_isSome h
  · next hany =>
    obtain ⟨a, ha, he⟩ := List.mem_map.mp h
    by_contra hnone
    have : (rows.map (fillRow cols)).any (fun r => r.order_id.isNone) = true := by
      refine List.any_eq_true.mpr ⟨b, he ▸ List.mem_map_of_mem _ ha, ?_⟩
      cases hb : b.order_id
      · rfl
      · exact absurd (by simp [hb]) hnone
    exact hany this

theorem fillStage_eq_self {cols : List String} {rows : List Row}
    (h1 : ∀ b ∈ rows, Filled cols b) (h2 : ∀ b ∈ rows, b.order_id.isSome) :
    fillStage cols rows = rows := by
  have hmap : rows.map (fillRow cols) = rows := by
    rw [List.map_congr_left (fun a ha => fillRow_eq_of_filled (h1 a ha))]
    exact List.map_id rows
  have hany : ¬ rows.any (fun r => r.order_id.isNone) = true := by
    rw [List.any_eq_true]
    rintro ⟨b, hb, hnone⟩
    have := h2 b hb
    cases hx : b.order_id
    · rw [hx] at this; simp at this
    · rw [hx] at hnone; simp at hnone
  unfold fillStage
  rw [hmap]
  rcases Decidable.em ("order_id" ∈ cols) with hc | hc
  · rw [if_pos hc, if_neg hany]
  · rw [if_neg hc]

/-! ### Lemmas about the validation stage -/

theorem unitsOK_repair (r : Row) : unitsOK (repairDates r) = unitsOK r := by
  unfold unitsOK
  rw [repairDates_units_sold]

theorem validateNoRepair_sublist (cols : List String) (rows : List Row) :
    (validateNoRepair cols rows).Sublist rows := by
  unfold validateNoRepair
  split
  · exact ((List.filter_sublist _).trans (List.filter_sublist _)).trans
      (dedupKeep_sublist [] rows)
  · exact (List.filter_sublist _).trans (dedupKeep_sublist [] rows)

theorem validateNoRepair_dedup_sublist (cols : List String) (rows : List Row) :
    (validateNoRepair cols rows).Sublist (dropDuplicates rows) := by
  unfold validateNoRepair
  split
  · exact (List.filter_sublist _).trans (List.filter_sublist _)
  · exact List.filter_sublist _

theorem validateNoRepair_isSome {cols : List String} {rows : List Row} {b : Row}
    (h : b ∈ validateNoRepair cols rows) : b.order_id.isSome := by
  unfold validateNoRepair at h
  split at h
  · exact (List.mem_filter.mp (List.mem_of_mem_filter h)).2
  · exact (List.mem_filter.mp h).2

theorem validateNoRepair_units {cols : List String} {rows : List Row}
    (hu : "units_sold" ∈ cols) {b : Row} (h : b ∈ validateNoRepair cols rows) :
    unitsOK b := by
  unfold validateNoRepair at h
  rw [if_pos hu] at h
  exact (List.mem_filter.mp h).2

theorem validateNoRepair_keys_nodup (cols : List String) (rows : List Row) :
    ((validateNoRepair cols rows).map Row.order_id).Nodup := by
  have hd : ((dropDuplicates rows).map Row.order_id).Nodup := dedupKeep_keys_nodup [] rows
  exact hd.sublist ((validateNoRepair_dedup_sublist cols rows).map Row.order_id)

theorem validateNoRepair_eq_self {cols : List String} {rows : List Row}
    (h1 : (rows.map Row.order_id).Nodup) (h2 : ∀ b ∈ rows, b.order_id.isSome)
    (h3 : "units_sold" ∈ cols → ∀ b ∈ rows, unitsOK b) :
    validateNoRepair cols rows = rows := by
  have hded : dropDuplicates rows = rows :=
    dedupKeep_eq_self h1 (fun r _ => List.not_mem_nil _)
  have hfil : rows.filter (fun r => r.order_id.isSome) = rows :=
    List.filter_eq_self.mpr h2
  unfold validateNoRepair
  rw [hded, hfil]
  split
  · next hu => exact List.filter_eq_self.mpr (h3 hu)
  · rfl

theorem validateStage_mem {cols : List String} {rows : List Row} {b : Row}
    (h : b ∈ validateStage cols rows) :
    ∃ a ∈ validateNoRepair cols rows, b = a ∨ b = repairDates a := by
  unfold validateStage at h
  split at h
  · obtain ⟨a, ha, he⟩ := List.mem_map.mp h
    exact ⟨a, ha, Or.inr he.symm⟩
  · exact ⟨b, h, Or.inl rfl⟩

theorem validateStage_isSome {cols : List String} {rows : List Row} {b : Row}
    (h : b ∈ validateStage cols rows) : b.order_id.isSome := by
  obtain ⟨a, ha, hc⟩ := validateStage_mem h
  rcases hc with rfl | rfl
  · exact validateNoRepair_isSome ha
  · rw [repairDates_order_id]
    exact validateNoRepair_isSome ha

theorem validateStage_units {cols : List String} {rows : List Row}
    (hu : "units_sold" ∈ cols) {b : Row} (h : b ∈ validateStage cols rows) :
    unitsOK b := by
  obtain ⟨a, ha, hc⟩ := validateStage_mem h
  rcases hc with rfl | rfl
  · exact validateNoRepair_units hu ha
  · rw [unitsOK_repair]
    exact validateNoRepair_units hu ha

theorem validateStage_keys_nodup (cols : List String) (rows : List Row) :
    ((validateStage cols rows).map Row.order_id).Nodup := by
  unfold validateStage
  split
  · rw [List.map_map]
    have he : (Row.order_id ∘ repairDates) = Row.order_id := funext repairDates_order_id
    rw [he]
    exact validateNoRepair_keys_nodup cols rows
  · exact validateNoRepair_keys_nodup cols rows

theorem validateStage_dates {cols : List String} {rows : List Row}
    (hd : "order_date" ∈ cols ∧ "ship_date" ∈ cols) {b : Row}
    (h : b ∈ validateStage cols rows) :
    ∀ o s : Int, b.order_date = some o → b.ship_date = some s → o ≤ s := by
  unfold validateStage at h
  rw [if_pos hd] at h
  obtain ⟨a, _, he⟩ := List.mem_map.mp h
  intro o s ho hs
  exact repairDates_le (he ▸ ho) (he ▸ hs)

theorem validateStage_filled {cols : List String} {rows : List Row}
    (hf : ∀ a ∈ rows, Filled cols a) {b : Row} (h : b ∈ validateStage cols rows) :
    Filled cols b := by
  obtain ⟨a, ha, hc⟩ := validateStage_mem h
  have ha2 : a ∈ rows := (validateNoRepair_sublist cols rows).subset ha
  rcases hc with hc | hc
  · rw [hc]; exact hf a ha2
  · rw [hc]; exact repairDates_filled (hf a ha2)

theorem validateStage_idem (cols : List String) (rows : List Row) :
    validateStage cols (validateStage cols rows) = validateStage cols rows := by
  unfold validateStage
  split
  · next hd =>
    have hmap2 : ((validateNoRepair cols rows).map repairDates).map repairDates
        = (validateNoRepair cols rows).map repairDates := by
      rw [List.map_map]
      exact List.map_congr_left (fun a _ => repairDates_idem a)
    rw [validateNoRepair_eq_self]
    · exact hmap2
    · rw [List.map_map]
      have he : (Row.order_id ∘ repairDates) = Row.order_id := funext repairDates_order_id
      rw [he]
      exact validateNoRepair_keys_nodup cols rows
    · intro b hb
      obtain ⟨a, ha, he⟩ := List.mem_map.mp hb
      rw [← he, repairDates_order_id]
      exact validateNoRepair_isSome ha
    · intro hu b hb
      obtain ⟨a, ha, he⟩ := List.mem_map.mp hb
      rw [← he, unitsOK_repair]
      exact validateNoRepair_units hu ha
  · exact validateNoRepair_eq_self (validateNoRepair_keys_nodup cols rows)
      (fun b hb => validateNoRepair_isSome hb)
      (fun hu b hb => validateNoRepair_units hu hb)

/-! ### Field preservation through the stages -/

theorem repairDates_order_date (r : Row) : (repairDates r).order_date = r.order_date := by
  unfold repairDates
  split
  · split <;> rfl
  · rfl

theorem fillStage_units_none {cols : List String} (hu : "units_sold" ∉ cols)
    {rows : List Row} (ha : ∀ a ∈ rows, a.units_sold = none) {b : Row}
    (h : b ∈ fillStage cols rows) : b.units_sold = none := by
  obtain ⟨a, hmem, hc | ⟨m, hc⟩⟩ := fillStage_mem h <;>
    rw [hc] <;>
    show fillOpt ("units_sold" ∈ cols) a.units_sold 0 = none <;>
    rw [fillOpt_not hu] <;>
    exact ha a hmem

theorem fillStage_order_date_none {cols : List String} (hu : "order_date" ∉ cols)
    {rows : List Row} (ha : ∀ a ∈ rows, a.order_date = none) {b : Row}
    (h : b ∈ fillStage cols rows) : b.order_date = none := by
  obtain ⟨a, hmem, hc | ⟨m, hc⟩⟩ := fillStage_mem h <;>
    rw [hc] <;>
    show fillOpt ("order_date" ∈ cols) a.order_date date19000101 = none <;>
    rw [fillOpt_not hu] <;>
    exact ha a hmem

theorem fillStage_ship_date_none {cols : List String} (hu : "ship_date" ∉ cols)
    {rows : List Row} (ha : ∀ a ∈ rows, a.ship_date = none) {b : Row}
    (h : b ∈ fillStage cols rows) : b.ship_date = none := by
  obtain ⟨a, hmem, hc | ⟨m, hc⟩⟩ := fillStage_mem h <;>
    rw [hc] <;>
    show fillOpt ("ship_date" ∈ cols) a.ship_date date19000101 = none <;>
    rw [fillOpt_not hu] <;>
    exact ha a hmem

theorem validateStage_units_none {cols : List String} {rows : List Row}
    (ha : ∀ a ∈ rows, a.units_sold = none) {b : Row}
    (h : b ∈ validateStage cols rows) : b.units_sold = none := by
  obtain ⟨a, hmem, hc | hc⟩ := validateStage_mem h
  · rw [hc]
    exact ha a ((validateNoRepair_sublist cols rows).subset hmem)
  · rw [hc, repairDates_units_sold]
    exact ha a ((validateNoRepair_sublist cols rows).subset hmem)

theorem validateStage_order_date_none {cols : List String} {rows : List Row}
    (ha : ∀ a ∈ rows, a.order_date = none) {b : Row}
    (h : b ∈ validateStage cols rows) : b.order_date = none := by
  obtain ⟨a, hmem, hc | hc⟩ := validateStage_mem h
  · rw [hc]
    exact ha a ((validateNoRepair_sublist cols rows).subset hmem)
  · rw [hc, repairDates_order_date]
    exact ha a ((validateNoRepair_sublist cols rows).subset hmem)

theorem validateStage_ship_date_none {cols : List String} {rows : List Row}
    (ha : ∀ a ∈ rows, a.ship_date = none) {b : Row}
    (h : b ∈ validateStage cols rows) : b.ship_date = none := by
  obtain ⟨a, hmem, hc | hc⟩ := validateStage_mem h
  · rw [hc]
    exact ha a ((validateNoRepair_sublist cols rows).subset hmem)
  · have hship : a.ship_date = none :=
      ha a ((validateNoRepair_sublist cols rows).subset hmem)
    rw [hc, repairDates_of_ship_none hship]
    exact hship

/-! ### Characterization of `transform_data` -/

theorem unitsOK_spec {r : Row} (h : unitsOK r) {u : Rat} (hu : r.units_sold = some u) :
    0 ≤ u := by
  unfold unitsOK at h
  rw [hu] at h
  exact of_decide_eq_true h

theorem transform_data_ok {df out : Frame} (h : transform_data df = Except.ok out) :
    "order_id" ∈ df.cols.map canonicalize
    ∧ out = ⟨df.cols.map canonicalize,
             validateStage (df.cols.map canonicalize)
               (fillStage (df.cols.map canonicalize) df.rows)⟩ := by
  unfold transform_data at h
  split at h
  · next hc => exact ⟨hc, (Except.ok.inj h).symm⟩
  · exact Except.noConfusion h

theorem transform_data_error {df : Frame} (h : "order_id" ∉ df.cols.map canonicalize) :
    transform_data df = Except.error "KeyError: order_id" := by
  unfold transform_data
  rw [if_neg h]

/-! ## Claims -/

/-- C7: the Transformer fails on a batch exactly when the required column
`order_id` is absent after normalization; on every other batch it returns
normally (no row-level condition raises). -/
theorem c7_transform_fails_iff (df : Frame) :
    (∃ e, transform_data df = Except.error e) ↔
      "order_id" ∉ df.cols.map canonicalize := by
  constructor
  · rintro ⟨e, he⟩ hc
    unfold transform_data at he
    rw [if_pos hc] at he
    exact Except.noConfusion he
  · intro hc
    exact ⟨_, transform_data_error hc⟩

/-- C2 counterexample: the input column `"Weird Column"` is not in the rename
mapping, yet it is present in the Transformer output, refuting "every column
not in the mapping is absent from the output batch". -/
theorem c2_counterexample :
    transform_data c2df = Except.ok c2out ∧ "Weird Column" ∈ c2out.cols := by
  decide

/-- C2 amended: headers are renamed to canonical names via the fixed mapping,
and every column outside the mapping is retained unchanged (the output
columns are exactly the renamed input columns; nothing is dropped). -/
theorem c2_amended (df out : Frame) (h : transform_data df = Except.ok out) :
    out.cols = df.cols.map canonicalize := by
  rw [(transform_data_ok h).2]

/-- C2 amended, witness at `c2df`. -/
theorem c2_witness :
    transform_data c2df = Except.ok c2out ∧ c2out.cols = c2df.cols.map canonicalize :=
  ⟨by decide, c2_amended c2df c2out (by decide)⟩

/-- C4: on every well-formed batch the Transformer accepts, every output row
has a non-null `order_id`, the `order_id` values are pairwise distinct,
every present `units_sold` is nonnegative, and whenever both dates are
present, `ship_date` is not before `order_date`. -/
theorem c4_invariants (df out : Frame) (hwf : Frame.WF df)
    (h : transform_data df = Except.ok out) :
    (∀ r ∈ out.rows, r.order_id.isSome)
    ∧ (out.rows.map Row.order_id).Nodup
    ∧ (∀ r ∈ out.rows, ∀ u : Rat, r.units_sold = some u → 0 ≤ u)
    ∧ (∀ r ∈ out.rows, ∀ o s : Int,
        r.order_date = some o → r.ship_date = some s → o ≤ s) := by
  obtain ⟨hc, ho⟩ := transform_data_ok h
  subst ho
  refine ⟨?_, ?_, ?_, ?_⟩
  · intro r hr
    exact validateStage_isSome hr
  · exact validateStage_keys_nodup _ _
  · intro r hr u hu
    by_cases hmem : "units_sold" ∈ df.cols.map canonicalize
    · exact unitsOK_spec (validateStage_units hmem hr) hu
    · have hnone : r.units_sold = none :=
        validateStage_units_none
          (fun a ha => fillStage_units_none hmem (fun x hx => ((hwf x hx).1 hmem)) ha) hr
      rw [hnone] at hu
      exact Option.noConfusion hu
  · intro r hr o s hor hsr
    by_cases hd : "order_date" ∈ df.cols.map canonicalize
        ∧ "ship_date" ∈ df.cols.map canonicalize
    · exact validateStage_dates hd hr o s hor hsr
    · rw [not_and_or] at hd
      rcases hd with hd | hd
      · have hnone : r.order_date = none :=
          validateStage_order_date_none
            (fun a ha => fillStage_order_date_none hd (fun x hx => ((hwf x hx).2.1 hd)) ha) hr
        rw [hnone] at hor
        exact Option.noConfusion hor
      · have hnone : r.ship_date = none :=
          validateStage_ship_date_none
            (fun a ha => fillStage_ship_date_none hd (fun x hx => ((hwf x hx).2.2 hd)) ha) hr
        rw [hnone] at hsr
        exact Option.noConfusion hsr

/-- C4, witness at `c4df` (its repaired output is `c4out`). -/
theorem c4_witness :
    (Frame.WF c4df ∧ transform_data c4df = Except.ok c4out)
    ∧ ((∀ r ∈ c4out.rows, r.order_id.isSome)
      ∧ (c4out.rows.map Row.order_id).Nodup
      ∧ (∀ r ∈ c4out.rows, ∀ u : Rat, r.units_sold = some u → 0 ≤ u)
      ∧ (∀ r ∈ c4out.rows, ∀ o s : Int,
          r.order_date = some o → r.ship_date = some s → o ≤ s)) :=
  ⟨⟨by unfold Frame.WF; decide, by decide⟩,
   c4_invariants c4df c4out (by unfold Frame.WF; decide) (by decide)⟩

/-- C8: the Transformer is idempotent on its own output: transforming an
accepted output frame again returns it unchanged. -/
theorem c8_idempotent (df out : Frame) (h : transform_data df = Except.ok out) :
    transform_data out = Except.ok out := by
  obtain ⟨hc, ho⟩ := transform_data_ok h
  subst ho
  have hmapc : (df.cols.map canonicalize).map canonicalize = df.cols.map canonicalize := by
    rw [List.map_map]
    exact List.map_congr_left (fun c _ => canonicalize_idem c)
  have hRfilled : ∀ b ∈ validateStage (df.cols.map canonicalize)
      (fillStage (df.cols.map canonicalize) df.rows),
      Filled (df.cols.map canonicalize) b :=
    fun b hb => validateStage_filled (fun a ha => fillStage_filled ha) hb
  have hRsome : ∀ b ∈ validateStage (df.cols.map canonicalize)
      (fillStage (df.cols.map canonicalize) df.rows), b.order_id.isSome :=
    fun b hb => validateStage_isSome hb
  have hfillR : fillStage (df.cols.map canonicalize)
      (validateStage (df.cols.map canonicalize)
        (fillStage (df.cols.map canonicalize) df.rows))
      = validateStage (df.cols.map canonicalize)
        (fillStage (df.cols.map canonicalize) df.rows) :=
    fillStage_eq_self hRfilled hRsome
  unfold transform_data
  have hc2 : "order_id" ∈ (df.cols.map canonicalize).map canonicalize := by
    rw [hmapc]; exact hc
  rw [if_pos hc2, hmapc, hfillR, validateStage_idem]

/-- C8, witness at `c4df`. -/
theorem c8_witness :
    transform_data c4df = Except.ok c4out ∧ transform_data c4out = Except.ok c4out :=
  ⟨by decide, c8_idempotent c4df c4out (by decide)⟩

/-- C1 counterexample: on scenario A's input the Transformer yields zero
rows, not the one row `{order_id: 1, units_sold: 10}` the claim states. -/
theorem c1_counterexample :
    (transform_data scnA).toOption.map (fun f => f.rows.length) = some 0 := by
  decide

/-- C1 amended: dedup (keep-first) runs before the negative-units filter, so
it keeps the first occurrence (`units_sold = -5`) and discards the duplicate
with `units_sold = 10`; the filter then removes the kept row, so the
Transformer yields zero rows. -/
theorem c1_amended :
    dropDuplicates (fillStage ["order_id", "units_sold"] scnA.rows)
      = [{ order_id := some 1, units_sold := some (-5) }]
    ∧ (dropDuplicates (fillStage ["order_id", "units_sold"] scnA.rows)).filter unitsOK = []
    ∧ transform_data scnA = Except.ok ⟨["order_id", "units_sold"], []⟩ := by
  decide

/-- C5 counterexample: for the batch with max existing id 5 and one missing
id, the synthesized id is `-1`, not `-2` as the claim states. -/
theorem c5_counterexample :
    newIds c5df.rows (fillStage ["order_id"] c5df.rows) = [some (-1)]
    ∧ newIds c5df.rows (fillStage ["order_id"] c5df.rows) ≠ [some (-2)] := by
  decide

/-- C5 amended: for a batch with one row missing `order_id` and maximum
existing id 5, the synthesized id is `min(5 - 1, -1) = -1`. -/
theorem c5_amended :
    transform_data c5df
      = Except.ok ⟨["order_id"], [{ order_id := some 5 }, { order_id := some (-1) }]⟩ := by
  decide

/-- C6 counterexample: with real ids `-1` and `-3` and two missing ids, the
first synthesized id `-2` equals (is not strictly less than)
`min(-1, max - 1)`, and the second synthesized id `-3` collides with a real
id of the batch. -/
theorem c6_counterexample :
    newIds c6rows (fillStage ["order_id"] c6rows) = [some (-2), some (-3)]
    ∧ ¬ ((-2 : Int) < min (-1 : Int) (maxExisting c6rows - 1))
    ∧ some (-3 : Int) ∈ c6rows.map Row.order_id := by
  decide

/-- C6 amended: synthesized ids are exactly `start, start - 1, ...` in
processing order with `start = min(existing-max - 1, -1)`, hence strictly
negative, pairwise distinct, and at most (not strictly below) that minimum;
they cannot collide with real ids when every real id is nonnegative
(collision with negative real ids is possible). -/
theorem c6_amended (rows : List Row) :
    newIds rows (synthOrderIds rows)
      = (List.range (countMissing rows)).map (fun j : Nat => some (startId rows - (j : Int)))
    ∧ startId rows ≤ -1
    ∧ (∀ i ∈ newIds rows (synthOrderIds rows), ∀ v : Int, i = some v → v < 0)
    ∧ ((∀ v ∈ rows.filterMap Row.order_id, 0 ≤ v) →
        ∀ j : Nat, j < countMissing rows →
          some (startId rows - (j : Int)) ∉ rows.map Row.order_id) := by
  have heq : newIds rows (synthOrderIds rows)
      = (List.range (countMissing rows)).map (fun j : Nat => some (startId rows - (j : Int))) :=
    newIds_assignIds rows (startId rows)
  have hstart : startId rows ≤ -1 := min_le_right _ _
  refine ⟨heq, hstart, ?_, ?_⟩
  · intro i hi v hv
    rw [heq] at hi
    obtain ⟨j, _, hj⟩ := List.mem_map.mp hi
    rw [← hj] at hv
    have : v = startId rows - (j : Int) := (Option.some.inj hv).symm
    have hj0 : (0 : Int) ≤ (j : Int) := Int.ofNat_nonneg j
    omega
  · intro hpos j _ hmem
    obtain ⟨r, hr, he⟩ := List.mem_map.mp hmem
    have : startId rows - (j : Int) ∈ rows.filterMap Row.order_id :=
      List.mem_filterMap.mpr ⟨r, hr, he⟩
    have h0 := hpos _ this
    have hj0 : (0 : Int) ≤ (j : Int) := Int.ofNat_nonneg j
    omega

/-- C6 amended, witness at `w6rows` (real id 5, two missing rows). -/
theorem c6_witness :
    (newIds w6rows (synthOrderIds w6rows)
      = (List.range (countMissing w6rows)).map
          (fun j : Nat => some (startId w6rows - (j : Int))))
    ∧ startId w6rows ≤ -1
    ∧ (∀ i ∈ newIds w6rows (synthOrderIds w6rows), ∀ v : Int, i = some v → v < 0)
    ∧ (∀ j : Nat, j < countMissing w6rows →
        some (startId w6rows - (j : Int)) ∉ w6rows.map Row.order_id) :=
  ⟨(c6_amended w6rows).1, (c6_amended w6rows).2.1, (c6_amended w6rows).2.2.1,
   (c6_amended w6rows).2.2.2 (by decide)⟩

/-- C10: when every `order_id` in the batch is null, the existing maximum is
taken to be `0`, so the ids are synthesized as `-1, -2, -3, ...` in row
order. -/
theorem c10_all_missing (rows : List Row) (h : ∀ r ∈ rows, r.order_id = none) :
    maxExisting rows = 0
    ∧ newIds rows (synthOrderIds rows)
      = (List.range rows.length).map (fun j : Nat => some ((-1 : Int) - (j : Int))) := by
  have hfm : rows.filterMap Row.order_id = [] :=
    List.filterMap_eq_nil_iff.mpr (fun a ha => h a ha)
  have hmax : maxExisting rows = 0 := by
    unfold maxExisting
    rw [hfm]
  have hstart : startId rows = -1 := by
    unfold startId
    rw [hmax]
    decide
  have hcm : countMissing rows = rows.length := by
    unfold countMissing
    rw [List.filter_eq_self.mpr (fun r hr => by rw [h r hr]; rfl)]
  refine ⟨hmax, ?_⟩
  unfold synthOrderIds
  rw [hstart, ← hcm]
  exact newIds_assignIds rows (-1)

/-- C10, witness at two all-missing rows. -/
theorem c10_witness :
    (∀ r ∈ w10rows, r.order_id = none)
    ∧ (maxExisting w10rows = 0
      ∧ newIds w10rows (synthOrderIds w10rows)
        = (List.range w10rows.length).map (fun j : Nat => some ((-1 : Int) - (j : Int)))) :=
  ⟨by decide, c10_all_missing w10rows (by decide)⟩

/-! ### Lemmas about the pipeline driver -/

theorem runChunks_ok_total (toSql : Frame → Except String Unit) (tot : Option Int) :
    ∀ (chunks : List Frame) (i p : Nat) (evs : List ChunkEvent) (n : Nat),
      runChunks toSql tot chunks i p = (evs, Except.ok n) →
      n = p + (evs.map ChunkEvent.loaded_rows).sum := by
  intro chunks
  induction chunks with
  | nil =>
    intro i p evs n h
    unfold runChunks at h
    injection h with h1 h2
    injection h2 with h2
    subst h1 h2
    simp
  | cons c cs ih =>
    intro i p evs n h
    unfold runChunks at h
    rcases ht : transform_data c with e | t <;> rw [ht] at h <;> dsimp only at h
    · exact absurd ((Prod.ext_iff.mp h).2) (by simp)
    rcases hl : load_data toSql t with e | m <;> rw [hl] at h <;> dsimp only at h
    · exact absurd ((Prod.ext_iff.mp h).2) (by simp)
    injection h with h1 h2
    have hpair : runChunks toSql tot cs (i + 1) (p + m)
        = ((runChunks toSql tot cs (i + 1) (p + m)).1, Except.ok n) := by
      rw [← h2]
    have := ih (i + 1) (p + m) (runChunks toSql tot cs (i + 1) (p + m)).1 n hpair
    subst h1
    simp only [List.map_cons, List.sum_cons]
    omega

/-- C3 counterexample: the pipeline entry point returns no `RunSummary`.  Two
runs that fail after loading different row counts (0 and 1) return the same
value, and two runs that complete with different totals (1 and 0) return the
same value, so the returned value carries neither `totalRowsLoaded` nor the
count loaded before a failure; those figures exist only in log events. -/
theorem c3_counterexample :
    run_etl toSqlB none [frameB2] = run_etl toSqlB none [frameB1, frameB2]
    ∧ ((runChunks toSqlB none [frameB2] 1 0).1.map ChunkEvent.loaded_rows).sum = 0
    ∧ ((runChunks toSqlB none [frameB1, frameB2] 1 0).1.map ChunkEvent.loaded_rows).sum = 1
    ∧ run_etl toSqlOk none [frameB1] = run_etl toSqlOk none []
    ∧ (runChunks toSqlOk none [frameB1] 1 0).2 = Except.ok 1
    ∧ (runChunks toSqlOk none [] 1 0).2 = Except.ok 0 := by
  decide

/-- C3 amended: `run_etl` returns `None`: on success the caller gets unit
while the total loaded (the sum of the per-chunk loaded counts) appears only
in the final log event, and on an unrecoverable error the exception
propagates to the caller as-is, with the rows loaded before the failure
recorded only in the already-emitted events. -/
theorem c3_amended (toSql : Frame → Except String Unit) (tot : Option Int)
    (chunks : List Frame) :
    (∀ evs n, runChunks toSql tot chunks 1 0 = (evs, Except.ok n) →
      run_etl toSql tot chunks = Except.ok ()
      ∧ n = (evs.map ChunkEvent.loaded_rows).sum)
    ∧ (∀ evs e, runChunks toSql tot chunks 1 0 = (evs, Except.error e) →
      run_etl toSql tot chunks = Except.error e) := by
  constructor
  · intro evs n h
    constructor
    · unfold run_etl
      rw [h]
      rfl
    · have := runChunks_ok_total toSql tot chunks 1 0 evs n h
      simpa using this
  · intro evs e h
    unfold run_etl
    rw [h]
    rfl

/-- C3 amended, witness: a run whose second chunk's store write fails. -/
theorem c3_witness :
    runChunks toSqlB none [frameB1, frameB2] 1 0
      = ([⟨1, 1, 1, 1, 1, none⟩], Except.error "boom")
    ∧ run_etl toSqlB none [frameB1, frameB2] = Except.error "boom" :=
  ⟨by decide,
   (c3_amended toSqlB none [frameB1, frameB2]).2 [⟨1, 1, 1, 1, 1, none⟩] "boom" (by decide)⟩

/-- C9 counterexample: a run whose pre-counted total is known (`some 2`) but
whose first chunk loads 0 rows emits a progress event with a null
percentage: Python's falsy test on `pct` nulls the percentage whenever the
cumulative count is zero, so "null exactly when the total is unknown" fails. -/
theorem c9_counterexample :
    (runChunks toSqlOk (some 2) [scnA] 1 0).1.map ChunkEvent.progress_percent = [none]
    ∧ (runChunks toSqlOk (some 2) [scnA] 1 0).1.map ChunkEvent.loaded_rows = [0]
    ∧ (some 2 : Option Int) ≠ none := by
  refine ⟨?_, by decide, by decide⟩
  have h1 : (runChunks toSqlOk (some 2) [scnA] 1 0).1.map ChunkEvent.progress_percent
      = [progressPercent (some 2) 0] := by rfl
  rw [h1]
  simp [progressPercent]

/-- C9 amended: an emitted progress percentage is null exactly when the
pre-counted total is unknown, the total is zero, or the cumulative processed
count is zero (the two zero cases arise from Python's falsy tests on
`total_rows` and `pct`); every event's percentage is computed from the total
and its own cumulative count; and the run's outcome never depends on whether
the count succeeded (a failed count degrades only the percentage). -/
theorem c9_amended :
    (∀ (tot : Option Int) (p : Nat),
      progressPercent tot p = none ↔ tot = none ∨ tot = some 0 ∨ p = 0)
    ∧ (∀ (toSql : Frame → Except String Unit) (tot : Option Int) (chunks : List Frame)
        (i p : Nat), ∀ ev ∈ (runChunks toSql tot chunks i p).1,
        ev.progress_percent = progressPercent tot ev.total_processed)
    ∧ (∀ (toSql : Frame → Except String Unit) (tot : Option Int) (chunks : List Frame)
        (i p : Nat),
        (runChunks toSql tot chunks i p).2 = (runChunks toSql none chunks i p).2) := by
  refine ⟨?_, ?_, ?_⟩
  · intro tot p
    cases tot with
    | none => simp [progressPercent]
    | some t =>
      by_cases ht : t = 0
      · subst ht
        simp [progressPercent]
      · have hx : ((p : Rat) / (t : Rat) * 100 = 0) ↔ p = 0 := by
          simp [mul_eq_zero, div_eq_zero_iff, ht]
        simp only [progressPercent]
        rw [if_neg ht]
        by_cases hp : p = 0
        · rw [if_pos (hx.mpr hp)]
          simp [hp, ht]
        · rw [if_neg (fun hz => hp (hx.mp hz))]
          simp [hp, ht]
  · intro toSql tot chunks
    induction chunks with
    | nil =>
      intro i p ev hev
      simp [runChunks] at hev
    | cons c cs ih =>
      intro i p ev hev
      unfold runChunks at hev
      rcases ht : transform_data c with e | t <;> rw [ht] at hev <;> dsimp only at hev
      · simp at hev
      rcases hl : load_data toSql t with e | m <;> rw [hl] at hev <;> dsimp only at hev
      · simp at hev
      rcases List.mem_cons.mp hev with he | he
      · rw [he]
      · exact ih (i + 1) (p + m) ev he
  · intro toSql tot chunks
    induction chunks with
    | nil =>
      intro i p
      rfl
    | cons c cs ih =>
      intro i p
      unfold runChunks
      rcases ht : transform_data c with e | t
      · dsimp only
      · dsimp only
        rcases hl : load_data toSql t with e | m
        · dsimp only
        · dsimp only
          exact ih (i + 1) (p + m)

/-- C9 amended, witness: a concrete event of a run with an unknown total has
the percentage its cumulative count prescribes. -/
theorem c9_witness :
    ((⟨1, 1, 1, 1, 1, none⟩ : ChunkEvent) ∈ (runChunks toSqlOk none [frameB1] 1 0).1)
    ∧ (⟨1, 1, 1, 1, 1, none⟩ : ChunkEvent).progress_percent
        = progressPercent none (⟨1, 1, 1, 1, 1, none⟩ : ChunkEvent).total_processed :=
  ⟨by decide,
   c9_amended.2.1 toSqlOk none [frameB1] 1 0 ⟨1, 1, 1, 1, 1, none⟩ (by decide)⟩


/-- C7, instance at `noIdFrame`: a batch without an `order_id` column fails. -/
theorem c7_witness :
    (∃ e, transform_data noIdFrame = Except.error e) ↔
      "order_id" ∉ noIdFrame.cols.map canonicalize :=
  c7_transform_fails_iff noIdFrame
